import Mathlib

/-!
Shallow embedding of `src/src/nft_ticketing_backend/src/lib.rs` (an Internet
Computer canister managing events, seat tickets and NFT metadata), together
with theorems settling the specification claims.

Modelling conventions:
* Rust `u32` / `u64` values are `Nat`; overflow is modelled with an explicit
  `% 2 ^ 64` at the one arithmetic site (`time() + five_minutes`).
* `candid::Principal` is an opaque identity; we model it as `String`.
* The three global `HashMap`s become association lists inside a `State`
  record that every operation threads explicitly.
* `ic_cdk::api::time()` and `ic_cdk::caller()` are collaborator inputs; they
  become explicit `now` / `caller` parameters of the operations that read them.
* Rust `Result<T, String>` becomes `Except String T`; each operation returns
  the result paired with the post-state.
-/

/-- Model of `candid::Principal`: an opaque caller identity. -/
abbrev Principal := String

/-- Model of the Rust `Event` struct (lib.rs lines 11-19). -/
structure Event where
  id : String
  name : String
  date : Nat
  location : String
  max_seats : Nat
  nft_id : Option String
deriving DecidableEq

/-- Model of the Rust `Ticket` struct (lib.rs lines 21-27). Note that the
source stores `seat_number` as a `String` (via `to_string()`). -/
structure Ticket where
  id : String
  seat_number : String
  event_id : String
  owner : Principal
deriving DecidableEq

/-- Model of the Rust `Attribute` struct (lib.rs lines 44-48). -/
structure Attribute where
  trait_type : String
  value : String
deriving DecidableEq

/-- Model of the Rust `DIP721Metadata` struct (lib.rs lines 36-42). -/
structure DIP721Metadata where
  name : String
  description : String
  image : String
  attributes : List Attribute
deriving DecidableEq

/-- Model of the Rust `NFTMetadata` struct (lib.rs lines 29-34). -/
structure NFTMetadata where
  token_id : String
  owner : Principal
  metadata : DIP721Metadata
deriving DecidableEq

/-- Membership test of a key, modelling `HashMap::contains_key`. -/
def mapContains {α : Type} (m : List (String × α)) (k : String) : Bool :=
  match m with
  | [] => false
  | (k2, _) :: rest => k2 == k || mapContains rest k

/-- Key lookup, modelling `HashMap::get`. -/
def mapGet {α : Type} (m : List (String × α)) (k : String) : Option α :=
  match m with
  | [] => none
  | (k2, v) :: rest => if k2 == k then some v else mapGet rest k

/-- Insertion (replace-or-add), modelling `HashMap::insert`. -/
def mapInsert {α : Type} (m : List (String × α)) (k : String) (v : α) :
    List (String × α) :=
  match m with
  | [] => [(k, v)]
  | (k2, v2) :: rest =>
      if k2 == k then (k, v) :: rest else (k2, v2) :: mapInsert rest k v

/-- The global mutable state: the three `static mut` maps `EVENTS`,
`TICKETS` and `NFT_METADATA` (lib.rs lines 60-62). -/
structure State where
  events : List (String × Event)
  tickets : List (String × Ticket)
  nft_metadata : List (String × NFTMetadata)
deriving DecidableEq

/-- The empty initial state: all three maps start empty. -/
def initState : State := ⟨[], [], []⟩

/-- Model of Rust's `str::trim` (a Rust standard-library primitive): drop
whitespace characters from both ends of the string. Defined structurally on
the character list so that it evaluates by kernel reduction. -/
def rustTrim (s : String) : String :=
  ⟨((s.data.dropWhile Char.isWhitespace).reverse.dropWhile
      Char.isWhitespace).reverse⟩

/-- Model of `validate_input` (lib.rs lines 66-80). `now` is the value of
`ic_cdk::api::time()`; the `u64` addition `time() + five_minutes` is reduced
`% 2 ^ 64`. -/
def validate_input (now : Nat) (name : String) (date : Nat) (location : String)
    (num_seats : Nat) : Except String Unit :=
  let five_minutes : Nat := 300000000000
  let min_allowed_date : Nat := (now + five_minutes) % 2 ^ 64
  if (rustTrim name).length == 0 then
    .error ("Invalid name=" ++ name)
  else if (rustTrim location).length == 0 then
    .error ("Invalid location=" ++ location)
  else if num_seats == 0 then
    .error ("Invalid num_seats=" ++ Nat.repr num_seats)
  else if date < min_allowed_date then
    .error ("Date needs to be at least five minutes more than the current timestamp. Date="
      ++ Nat.repr date)
  else
    .ok ()

/-- Model of `create_event` (lib.rs lines 82-111). Returns the Rust result
paired with the post-state. -/
def create_event (now : Nat) (st : State) (name : String) (date : Nat)
    (location : String) (num_seats : Nat) (id : String) :
    Except String Event × State :=
  if mapContains st.events id then
    (.error "Event with this ID already exists", st)
  else
    match validate_input now name date location num_seats with
    | .error e => (.error e, st)
    | .ok _ =>
        let event : Event :=
          { id := id, name := name, date := date, location := location
            max_seats := num_seats, nft_id := none }
        (.ok event, { st with events := mapInsert st.events id event })

/-- The ticket identifier: `format!("{}_{}", event_id, seat_number)`
(lib.rs line 125), with the `u32` rendered in decimal by `Nat.repr`. -/
def ticketId (event_id : String) (seat_number : Nat) : String :=
  event_id ++ "_" ++ Nat.repr seat_number

/-- Model of `mint_ticket` (lib.rs lines 113-162). -/
def mint_ticket (st : State) (event_id : String) (seat_number : Nat)
    (owner : Principal) : Except String Ticket × State :=
  match mapGet st.events event_id with
  | none => (.error "Event not found", st)
  | some event =>
      if event.max_seats ≤ seat_number then
        (.error "Seat number exceeds the maximum seats available", st)
      else
        let ticket_id := ticketId event_id seat_number
        if mapContains st.tickets ticket_id then
          (.error "This seat is already taken", st)
        else
          let nft_metadata : NFTMetadata :=
            { token_id := ticket_id, owner := owner
              metadata :=
                { name := "Event Ticket"
                  description :=
                    "Ticket for " ++ event.name ++ " at seat "
                      ++ Nat.repr seat_number
                  image := "image_url_or_data_uri"
                  attributes := [{ trait_type := "Event Name", value := event.name }] } }
          let ticket : Ticket :=
            { id := ticket_id, seat_number := Nat.repr seat_number
              event_id := event_id, owner := owner }
          (.ok ticket,
            { st with
                nft_metadata := mapInsert st.nft_metadata ticket_id nft_metadata
                tickets := mapInsert st.tickets ticket_id ticket })

/-- Model of `transfer_ticket` (lib.rs lines 163-185). `caller` is the value
of `ic_cdk::caller()`, the authenticated requester identity from the call
context (it is not part of the request payload). The in-place mutation
through `get_mut` becomes a replacing `mapInsert`. -/
def transfer_ticket (caller : Principal) (st : State) (ticket_id : String)
    (new_owner : Principal) : Except String Unit × State :=
  match mapGet st.tickets ticket_id with
  | none => (.error "Ticket not found", st)
  | some ticket =>
      if ticket.owner ≠ caller then
        (.error "Only the ticket owner can transfer it", st)
      else
        (.ok (),
          { st with
              tickets := mapInsert st.tickets ticket_id { ticket with owner := new_owner } })

/-- Model of `check_ticket_owner` (lib.rs lines 187-200): pure lookup. -/
def check_ticket_owner (st : State) (ticket_id : String) :
    Except String Principal :=
  match mapGet st.tickets ticket_id with
  | some ticket => .ok ticket.owner
  | none => .error ("Ticket with id=" ++ ticket_id ++ " not found.")

/-- Model of `get_event` (lib.rs lines 202-214): pure lookup. -/
def get_event (st : State) (event_id : String) : Except String Event :=
  match mapGet st.events event_id with
  | some event => .ok event
  | none => .error ("Event with id=" ++ event_id ++ " not found.")

/-- One state-mutating request, with its collaborator inputs (`now` for
`create_event`, `caller` for `transfer_ticket`) packaged in. The two query
operations never mutate the state. -/
inductive Op where
  | create (now : Nat) (name : String) (date : Nat) (location : String)
      (num_seats : Nat) (id : String)
  | mint (event_id : String) (seat_number : Nat) (owner : Principal)
  | transfer (caller : Principal) (ticket_id : String) (new_owner : Principal)

/-- The state after executing one request. -/
def applyOp (st : State) : Op → State
  | .create now name date location num_seats id =>
      (create_event now st name date location num_seats id).2
  | .mint event_id seat_number owner =>
      (mint_ticket st event_id seat_number owner).2
  | .transfer caller ticket_id new_owner =>
      (transfer_ticket caller st ticket_id new_owner).2

/-- The state after executing a sequence of requests, in order. -/
def applyOps (st : State) : List Op → State
  | [] => st
  | op :: ops => applyOps (applyOp st op) ops

/-- Numeric value of a decimal digit character (`'0'` is code point 48). -/
def chValue (c : Char) : Nat := c.toNat - 48

/-- Value of a most-significant-first list of decimal digit characters; used
to show that the decimal rendering inside `ticketId` is injective. -/
def listVal : List Char → Nat
  | [] => 0
  | c :: cs => chValue c * 10 ^ cs.length + listVal cs

/-! ### Concrete fixtures (the scenario of spec section 8) -/

/-- The event created by
`create_event 0 initState "Concert" 300000000000 "Hall" 10 "E1"`. -/
def evA : Event :=
  { id := "E1", name := "Concert", date := 300000000000, location := "Hall"
    max_seats := 10, nft_id := none }

/-- State holding just the event `"E1"` with capacity 10. -/
def stA : State := { events := [("E1", evA)], tickets := [], nft_metadata := [] }

/-- The ticket minted by `mint_ticket stA "E1" 0 "A"`. -/
def tA : Ticket :=
  { id := "E1_0", seat_number := "0", event_id := "E1", owner := "A" }

/-- State after minting seat 0 of `"E1"` to owner `"A"`. -/
def stA1 : State := (mint_ticket stA "E1" 0 "A").2

/-- State after owner `"A"` transfers ticket `"E1_0"` to `"B"`. -/
def stA2 : State := (transfer_ticket "A" stA1 "E1_0" "B").2

/-! ### Association-list lemmas -/

theorem mapContains_iff_mapGet {α : Type} (m : List (String × α)) (k : String) :
    mapContains m k = true ↔ ∃ v, mapGet m k = some v := by
  induction m with
  | nil => simp [mapContains, mapGet]
  | cons p rest ih =>
      obtain ⟨k2, v2⟩ := p
      by_cases h : k2 = k
      · subst h; simp [mapContains, mapGet]
      · simp [mapContains, mapGet, h, ih]

theorem mapContains_mapInsert {α : Type} (m : List (String × α))
    (k k2 : String) (v : α) :
    mapContains (mapInsert m k v) k2 = ((k == k2) || mapContains m k2) := by
  induction m with
  | nil => simp [mapInsert, mapContains]
  | cons p rest ih =>
      obtain ⟨k3, v3⟩ := p
      by_cases h : k3 = k
      · subst h
        simp only [mapInsert, beq_self_eq_true, if_true, mapContains]
        by_cases h2 : k3 = k2 <;> simp [h2]
      · simp only [mapInsert, beq_iff_eq, h, if_false, mapContains, ih]
        cases hb : (k3 == k2) <;> cases hc : (k == k2) <;> simp [hb, hc]

theorem mapGet_mapInsert_self {α : Type} (m : List (String × α))
    (k : String) (v : α) :
    mapGet (mapInsert m k v) k = some v := by
  induction m with
  | nil => simp [mapInsert, mapGet]
  | cons p rest ih =>
      obtain ⟨k3, v3⟩ := p
      by_cases h : k3 = k
      · subst h; simp [mapInsert, mapGet]
      · simp [mapInsert, mapGet, h, ih]

theorem mapGet_mapInsert_ne {α : Type} (m : List (String × α))
    (k k2 : String) (v : α) (h : k ≠ k2) :
    mapGet (mapInsert m k v) k2 = mapGet m k2 := by
  induction m with
  | nil => simp [mapInsert, mapGet, h]
  | cons p rest ih =>
      obtain ⟨k3, v3⟩ := p
      by_cases h3 : k3 = k
      · subst h3; simp [mapInsert, mapGet, h]
      · simp only [mapInsert, beq_iff_eq, h3, if_false, mapGet]
        by_cases h2 : k3 = k2 <;> simp [h2, ih]

/-! ### Frame lemmas for the three operations -/

theorem create_event_events_or (now : Nat) (st : State) (name : String)
    (date : Nat) (location : String) (num_seats : Nat) (id : String) :
    (create_event now st name date location num_seats id).2.events = st.events ∨
    (create_event now st name date location num_seats id).2.events =
      mapInsert st.events id
        { id := id, name := name, date := date, location := location
          max_seats := num_seats, nft_id := none } := by
  unfold create_event
  split
  · exact Or.inl rfl
  · split
    · exact Or.inl rfl
    · exact Or.inr rfl

theorem create_event_tickets (now : Nat) (st : State) (name : String)
    (date : Nat) (location : String) (num_seats : Nat) (id : String) :
    (create_event now st name date location num_seats id).2.tickets =
      st.tickets := by
  unfold create_event
  split
  · rfl
  · split <;> rfl

theorem mint_ticket_events (st : State) (event_id : String) (seat_number : Nat)
    (owner : Principal) :
    (mint_ticket st event_id seat_number owner).2.events = st.events := by
  unfold mint_ticket
  split
  · rfl
  · split
    · rfl
    · dsimp only
      split <;> rfl

theorem mint_ticket_tickets_or (st : State) (event_id : String)
    (seat_number : Nat) (owner : Principal) :
    (mint_ticket st event_id seat_number owner).2.tickets = st.tickets ∨
    ∃ t, (mint_ticket st event_id seat_number owner).2.tickets =
      mapInsert st.tickets (ticketId event_id seat_number) t := by
  unfold mint_ticket
  split
  · exact Or.inl rfl
  · split
    · exact Or.inl rfl
    · dsimp only
      split
      · exact Or.inl rfl
      · exact Or.inr ⟨_, rfl⟩

theorem transfer_ticket_events (caller : Principal) (st : State)
    (ticket_id : String) (new_owner : Principal) :
    (transfer_ticket caller st ticket_id new_owner).2.events = st.events := by
  unfold transfer_ticket
  split
  · rfl
  · split <;> rfl

theorem transfer_ticket_tickets_or (caller : Principal) (st : State)
    (ticket_id : String) (new_owner : Principal) :
    (transfer_ticket caller st ticket_id new_owner).2.tickets = st.tickets ∨
    ∃ t, (transfer_ticket caller st ticket_id new_owner).2.tickets =
      mapInsert st.tickets ticket_id t := by
  unfold transfer_ticket
  split
  · exact Or.inl rfl
  · split
    · exact Or.inl rfl
    · exact Or.inr ⟨_, rfl⟩

/-! ### Monotonicity: keys present in a map stay present forever -/

theorem tickets_mono_applyOp (st : State) (op : Op) (k : String)
    (h : mapContains st.tickets k = true) :
    mapContains (applyOp st op).tickets k = true := by
  cases op with
  | create now name date location num_seats id =>
      simpa [applyOp, create_event_tickets] using h
  | mint event_id seat_number owner =>
      rcases mint_ticket_tickets_or st event_id seat_number owner with h2 | ⟨t, h2⟩
      · simpa [applyOp, h2] using h
      · simp [applyOp, h2, mapContains_mapInsert, h]
  | transfer caller ticket_id new_owner =>
      rcases transfer_ticket_tickets_or caller st ticket_id new_owner with h2 | ⟨t, h2⟩
      · simpa [applyOp, h2] using h
      · simp [applyOp, h2, mapContains_mapInsert, h]

theorem tickets_mono_applyOps (st : State) (ops : List Op) (k : String)
    (h : mapContains st.tickets k = true) :
    mapContains (applyOps st ops).tickets k = true := by
  induction ops generalizing st with
  | nil => simpa [applyOps] using h
  | cons op ops ih =>
      simpa [applyOps] using ih (applyOp st op) (tickets_mono_applyOp st op k h)

theorem events_mono_applyOp (st : State) (op : Op) (k : String)
    (h : mapContains st.events k = true) :
    mapContains (applyOp st op).events k = true := by
  cases op with
  | create now name date location num_seats id =>
      rcases create_event_events_or now st name date location num_seats id
        with h2 | h2
      · simpa [applyOp, h2] using h
      · simp [applyOp, h2, mapContains_mapInsert, h]
  | mint event_id seat_number owner =>
      simpa [applyOp, mint_ticket_events] using h
  | transfer caller ticket_id new_owner =>
      simpa [applyOp, transfer_ticket_events] using h

theorem events_mono_applyOps (st : State) (ops : List Op) (k : String)
    (h : mapContains st.events k = true) :
    mapContains (applyOps st ops).events k = true := by
  induction ops generalizing st with
  | nil => simpa [applyOps] using h
  | cons op ops ih =>
      simpa [applyOps] using ih (applyOp st op) (events_mono_applyOp st op k h)

/-! ### Decimal rendering: digit characters, value, injectivity -/

theorem chValue_digitChar : ∀ d < 10, chValue (Nat.digitChar d) = d := by decide

theorem digitChar_ne_underscore : ∀ d < 10, Nat.digitChar d ≠ '_' := by decide

theorem toDigitsCore_mem (fuel : Nat) : ∀ (n : Nat) (acc : List Char) (c : Char),
    c ∈ Nat.toDigitsCore 10 fuel n acc →
    c ∈ acc ∨ ∃ d, d < 10 ∧ c = Nat.digitChar d := by
  induction fuel with
  | zero =>
      intro n acc c h
      exact Or.inl (by simpa [Nat.toDigitsCore] using h)
  | succ fuel ih =>
      intro n acc c h
      simp only [Nat.toDigitsCore] at h
      by_cases h0 : n / 10 = 0
      · rw [if_pos h0] at h
        rcases List.mem_cons.mp h with h1 | h1
        · exact Or.inr ⟨n % 10, Nat.mod_lt _ (by norm_num), h1⟩
        · exact Or.inl h1
      · rw [if_neg h0] at h
        rcases ih (n / 10) (Nat.digitChar (n % 10) :: acc) c h with h1 | h1
        · rcases List.mem_cons.mp h1 with h2 | h2
          · exact Or.inr ⟨n % 10, Nat.mod_lt _ (by norm_num), h2⟩
          · exact Or.inl h2
        · exact h1.elim (fun d hd => Or.inr ⟨d, hd⟩)

theorem toDigitsCore_listVal (fuel : Nat) : ∀ (n : Nat) (acc : List Char),
    n < 10 ^ fuel →
    listVal (Nat.toDigitsCore 10 fuel n acc) = n * 10 ^ acc.length + listVal acc := by
  induction fuel with
  | zero =>
      intro n acc h
      have hn : n = 0 := Nat.lt_one_iff.mp (by simpa using h)
      subst hn
      simp [Nat.toDigitsCore]
  | succ fuel ih =>
      intro n acc h
      simp only [Nat.toDigitsCore]
      by_cases h0 : n / 10 = 0
      · rw [if_pos h0]
        have hn : n < 10 := by
          have := Nat.div_add_mod n 10
          have hm : n % 10 < 10 := Nat.mod_lt _ (by norm_num)
          omega
        have hnn : n % 10 = n := Nat.mod_eq_of_lt hn
        have hm : n % 10 < 10 := Nat.mod_lt _ (by norm_num)
        simp only [listVal]
        rw [chValue_digitChar (n % 10) hm, hnn]
      · rw [if_neg h0]
        have hlt : n / 10 < 10 ^ fuel := by
          rw [Nat.div_lt_iff_lt_mul (by norm_num)]
          calc n < 10 ^ (fuel + 1) := h
          _ = 10 ^ fuel * 10 := by ring
        rw [ih (n / 10) _ hlt]
        have hdm : 10 * (n / 10) + n % 10 = n := Nat.div_add_mod n 10
        simp only [listVal, List.length_cons,
          chValue_digitChar (n % 10) (Nat.mod_lt _ (by norm_num))]
        conv_rhs => rw [← hdm]
        ring

theorem repr_data_eq (n : Nat) :
    (Nat.repr n).data = Nat.toDigitsCore 10 (n + 1) n [] := rfl

theorem listVal_repr (n : Nat) : listVal (Nat.repr n).data = n := by
  have h : n < 10 ^ (n + 1) :=
    lt_of_lt_of_le (Nat.lt_pow_self (by norm_num) n)
      (Nat.pow_le_pow_right (by norm_num) (Nat.le_succ n))
  rw [repr_data_eq, toDigitsCore_listVal (n + 1) n [] h]
  simp [listVal]

theorem repr_injective (m n : Nat) (h : Nat.repr m = Nat.repr n) : m = n := by
  have h2 := congrArg (fun s => listVal s.data) h
  simpa [listVal_repr] using h2

theorem repr_mem_digit (n : Nat) (c : Char) (h : c ∈ (Nat.repr n).data) :
    ∃ d, d < 10 ∧ c = Nat.digitChar d := by
  rw [repr_data_eq] at h
  rcases toDigitsCore_mem (n + 1) n [] c h with h1 | h1
  · simp at h1
  · exact h1

theorem repr_no_underscore (n : Nat) : ∀ c ∈ (Nat.repr n).data, c ≠ '_' := by
  intro c h
  obtain ⟨d, hd, rfl⟩ := repr_mem_digit n c h
  exact digitChar_ne_underscore d hd

theorem sep_inj (a : List Char) : ∀ (b d1 d2 : List Char),
    (∀ c ∈ d1, c ≠ '_') → (∀ c ∈ d2, c ≠ '_') →
    a ++ '_' :: d1 = b ++ '_' :: d2 → a = b ∧ d1 = d2 := by
  induction a with
  | nil =>
      intro b d1 d2 h1 h2 h
      cases b with
      | nil => simpa using h
      | cons c b2 =>
          simp only [List.nil_append, List.cons_append, List.cons.injEq] at h
          obtain ⟨hc, hd⟩ := h
          exact absurd rfl
            (h1 '_' (by rw [hd]; exact List.mem_append_right _ (List.mem_cons_self _ _)))
  | cons c a2 ih =>
      intro b d1 d2 h1 h2 h
      cases b with
      | nil =>
          simp only [List.cons_append, List.nil_append, List.cons.injEq] at h
          obtain ⟨hc, hd⟩ := h
          exact absurd rfl
            (h2 '_' (by rw [← hd]; exact List.mem_append_right _ (List.mem_cons_self _ _)))
      | cons c2 b2 =>
          simp only [List.cons_append, List.cons.injEq] at h
          obtain ⟨hc, hd⟩ := h
          obtain ⟨hab, hd12⟩ := ih b2 d1 d2 h1 h2 hd
          exact ⟨by rw [hc, hab], hd12⟩

theorem ticketId_data (e : String) (s : Nat) :
    (ticketId e s).data = e.data ++ '_' :: (Nat.repr s).data := by
  have h1 : ("_" : String).data = ['_'] := rfl
  simp [ticketId, h1]

/-- C10: the ticket-id derivation `event_id ++ "_" ++ decimal(seat)` is
injective on `(event_id, seat_number)` pairs with `u32` seat numbers, even
when the event id itself contains underscores, so tickets of different
(event, seat) pairs can never collide in the tickets map. -/
theorem C10_ticketId_injective (e1 e2 : String) (s1 s2 : Nat)
    (hs1 : s1 < 2 ^ 32) (hs2 : s2 < 2 ^ 32)
    (hne : (e1, s1) ≠ (e2, s2)) :
    ticketId e1 s1 ≠ ticketId e2 s2 := by
  intro h
  apply hne
  have hd := congrArg String.data h
  rw [ticketId_data, ticketId_data] at hd
  obtain ⟨he, hs⟩ := sep_inj e1.data e2.data (Nat.repr s1).data (Nat.repr s2).data
    (repr_no_underscore s1) (repr_no_underscore s2) hd
  have heq : e1 = e2 := String.ext he
  have hseq : s1 = s2 := repr_injective s1 s2 (String.ext hs)
  rw [heq, hseq]

/-- C10 witness: the pairs `("E_1", 0)` and `("E", 10)` are distinct and so
are their derived ticket ids, despite the underscore inside `"E_1"`. -/
theorem C10_ticketId_injective_witness : ticketId "E_1" 0 ≠ ticketId "E" 10 :=
  C10_ticketId_injective "E_1" "E" 0 10 (by norm_num) (by norm_num) (by decide)

/-! ### Inversion lemmas for successful operations -/

theorem create_event_ok_inv (now : Nat) (st : State) (name : String)
    (date : Nat) (location : String) (num_seats : Nat) (id : String)
    (ev : Event) (st2 : State)
    (h : create_event now st name date location num_seats id = (.ok ev, st2)) :
    mapContains st.events id = false ∧
    ev = { id := id, name := name, date := date, location := location
           max_seats := num_seats, nft_id := none } ∧
    st2 = { st with events := mapInsert st.events id ev } := by
  unfold create_event at h
  by_cases hc : mapContains st.events id = true
  · rw [if_pos hc] at h
    simp at h
  · rw [if_neg hc] at h
    cases hv : validate_input now name date location num_seats with
    | error e =>
        rw [hv] at h
        simp at h
    | ok u =>
        rw [hv] at h
        simp only [Prod.mk.injEq, Except.ok.injEq] at h
        obtain ⟨h1, h2⟩ := h
        subst h1
        subst h2
        exact ⟨Bool.not_eq_true _ ▸ eq_false_of_ne_true hc, rfl, rfl⟩

theorem mint_ticket_ok_inv (st : State) (event_id : String) (seat_number : Nat)
    (owner : Principal) (t : Ticket) (st2 : State)
    (h : mint_ticket st event_id seat_number owner = (.ok t, st2)) :
    ∃ ev, mapGet st.events event_id = some ev ∧
      seat_number < ev.max_seats ∧
      mapContains st.tickets (ticketId event_id seat_number) = false ∧
      t = { id := ticketId event_id seat_number
            seat_number := Nat.repr seat_number
            event_id := event_id, owner := owner } ∧
      st2 = { st with
          nft_metadata := mapInsert st.nft_metadata (ticketId event_id seat_number)
            { token_id := ticketId event_id seat_number, owner := owner
              metadata :=
                { name := "Event Ticket"
                  description :=
                    "Ticket for " ++ ev.name ++ " at seat "
                      ++ Nat.repr seat_number
                  image := "image_url_or_data_uri"
                  attributes := [{ trait_type := "Event Name", value := ev.name }] } }
          tickets := mapInsert st.tickets (ticketId event_id seat_number) t } := by
  unfold mint_ticket at h
  cases hev : mapGet st.events event_id with
  | none =>
      rw [hev] at h
      simp at h
  | some ev =>
      rw [hev] at h
      dsimp only at h
      by_cases hb : ev.max_seats ≤ seat_number
      · rw [if_pos hb] at h
        simp at h
      · rw [if_neg hb] at h
        by_cases hc : mapContains st.tickets (ticketId event_id seat_number) = true
        · rw [if_pos hc] at h
          simp at h
        · rw [if_neg hc] at h
          simp only [Prod.mk.injEq, Except.ok.injEq] at h
          obtain ⟨h1, h2⟩ := h
          subst h1
          subst h2
          exact ⟨ev, rfl, Nat.lt_of_not_le hb,
            eq_false_of_ne_true hc, rfl, rfl⟩

theorem transfer_ticket_ok_inv (caller : Principal) (st : State)
    (ticket_id : String) (new_owner : Principal) (st2 : State)
    (h : transfer_ticket caller st ticket_id new_owner = (.ok (), st2)) :
    ∃ tk, mapGet st.tickets ticket_id = some tk ∧ tk.owner = caller ∧
      st2 = { st with
          tickets := mapInsert st.tickets ticket_id { tk with owner := new_owner } } := by
  unfold transfer_ticket at h
  cases htk : mapGet st.tickets ticket_id with
  | none =>
      rw [htk] at h
      simp at h
  | some tk =>
      rw [htk] at h
      dsimp only at h
      by_cases ho : tk.owner ≠ caller
      · rw [if_pos ho] at h
        simp at h
      · rw [if_neg ho] at h
        simp only [Prod.mk.injEq] at h
        exact ⟨tk, rfl, Classical.not_not.mp ho, h.2.symm⟩

/-! ### Events are never overwritten: lookups are preserved by every op -/

theorem events_get_applyOp (st : State) (op : Op) (k : String) (v : Event)
    (h : mapGet st.events k = some v) :
    mapGet (applyOp st op).events k = some v := by
  cases op with
  | create now name date location num_seats id =>
      by_cases hik : id = k
      · subst hik
        have hc : mapContains st.events id = true :=
          (mapContains_iff_mapGet _ _).mpr ⟨v, h⟩
        simp only [applyOp]
        unfold create_event
        rw [if_pos hc]
        exact h
      · rcases create_event_events_or now st name date location num_seats id
          with h2 | h2
        · simp only [applyOp] at h2 ⊢
          rw [h2]
          exact h
        · simp only [applyOp] at h2 ⊢
          rw [h2, mapGet_mapInsert_ne _ _ _ _ hik]
          exact h
  | mint event_id seat_number owner =>
      simp only [applyOp]
      rw [mint_ticket_events]
      exact h
  | transfer caller ticket_id new_owner =>
      simp only [applyOp]
      rw [transfer_ticket_events]
      exact h

theorem events_get_applyOps (st : State) (ops : List Op) (k : String) (v : Event)
    (h : mapGet st.events k = some v) :
    mapGet (applyOps st ops).events k = some v := by
  induction ops generalizing st with
  | nil => simpa [applyOps] using h
  | cons op ops ih =>
      simpa [applyOps] using ih (applyOp st op) (events_get_applyOp st op k v h)

/-! ### Claim theorems -/

/-- C1: for a fixed `(event_id, seat_number)` pair, at most one `mint_ticket`
call ever succeeds: after a successful mint, every later `mint_ticket` call
for the same pair — after any further sequence of operations — returns the
`SeatAlreadyTaken` error (`"This seat is already taken"`) and leaves the
state unchanged, so at most one Ticket exists for the pair. -/
theorem C1_mint_once (st : State) (event_id : String) (seat_number : Nat)
    (owner : Principal) (t : Ticket) (st2 : State)
    (h : mint_ticket st event_id seat_number owner = (.ok t, st2)) :
    ∀ (ops : List Op) (owner2 : Principal),
      mint_ticket (applyOps st2 ops) event_id seat_number owner2 =
        (.error "This seat is already taken", applyOps st2 ops) := by
  intro ops owner2
  obtain ⟨ev, hev, hlt, hfree, ht, hst2⟩ :=
    mint_ticket_ok_inv st event_id seat_number owner t st2 h
  have hev2 : mapGet (applyOps st2 ops).events event_id = some ev := by
    apply events_get_applyOps
    rw [hst2]
    exact hev
  have hcon2 : mapContains (applyOps st2 ops).tickets
      (ticketId event_id seat_number) = true := by
    apply tickets_mono_applyOps
    rw [hst2]
    simp [mapContains_mapInsert]
  unfold mint_ticket
  rw [hev2]
  dsimp only
  rw [if_neg (Nat.not_le_of_lt hlt)]
  rw [if_pos hcon2]

/-- C1 witness: minting seat 0 of event `"E1"` succeeds once; the immediate
retry by another owner fails with `"This seat is already taken"`. -/
theorem C1_mint_once_witness :
    mint_ticket stA1 "E1" 0 "B" = (.error "This seat is already taken", stA1) :=
  C1_mint_once stA "E1" 0 "A" tA stA1 rfl [] "B"

/-- C2: `transfer_ticket` succeeds iff the ticket exists and the
authenticated requester (the `ic_cdk::caller()` context value, not any
payload field) equals the ticket's current owner; a transfer attempted with
any other caller identity returns `NotAuthorized`
(`"Only the ticket owner can transfer it"`) and leaves the state, hence the
ticket's owner, unchanged. -/
theorem C2_transfer_authorization (caller : Principal) (st : State)
    (ticket_id : String) (new_owner : Principal) :
    ((∃ st2, transfer_ticket caller st ticket_id new_owner = (.ok (), st2)) ↔
      ∃ tk, mapGet st.tickets ticket_id = some tk ∧ tk.owner = caller) ∧
    (∀ tk, mapGet st.tickets ticket_id = some tk → tk.owner ≠ caller →
      transfer_ticket caller st ticket_id new_owner =
        (.error "Only the ticket owner can transfer it", st)) := by
  constructor
  · constructor
    · rintro ⟨st2, h⟩
      obtain ⟨tk, h1, h2, _⟩ :=
        transfer_ticket_ok_inv caller st ticket_id new_owner st2 h
      exact ⟨tk, h1, h2⟩
    · rintro ⟨tk, h1, h2⟩
      refine ⟨{ st with
        tickets := mapInsert st.tickets ticket_id { tk with owner := new_owner } }, ?_⟩
      unfold transfer_ticket
      rw [h1]
      dsimp only
      rw [if_neg (by simp [h2])]
  · intro tk h1 h2
    unfold transfer_ticket
    rw [h1]
    dsimp only
    rw [if_pos h2]

/-- C3: `mint_ticket` succeeds only if `seat_number < event.max_seats`
(strict bound): any `seat_number ≥ max_seats` is rejected with the
out-of-range error, and any in-range seat that is still free is accepted.
In particular, with capacity 10, seat 10 is rejected and free seat 9 is
accepted (see the witness). -/
theorem C3_seat_bound (st : State) (event_id : String) (seat_number : Nat)
    (owner : Principal) (ev : Event)
    (hev : mapGet st.events event_id = some ev) :
    ((∃ t st2, mint_ticket st event_id seat_number owner = (.ok t, st2)) →
      seat_number < ev.max_seats) ∧
    (ev.max_seats ≤ seat_number →
      mint_ticket st event_id seat_number owner =
        (.error "Seat number exceeds the maximum seats available", st)) ∧
    (seat_number < ev.max_seats →
      mapContains st.tickets (ticketId event_id seat_number) = false →
      ∃ t st2, mint_ticket st event_id seat_number owner = (.ok t, st2)) := by
  refine ⟨?_, ?_, ?_⟩
  · rintro ⟨t, st2, h⟩
    obtain ⟨ev2, hev2, hlt, _⟩ :=
      mint_ticket_ok_inv st event_id seat_number owner t st2 h
    rw [hev] at hev2
    injection hev2 with hev3
    rw [hev3]
    exact hlt
  · intro hge
    unfold mint_ticket
    rw [hev]
    dsimp only
    rw [if_pos hge]
  · intro hlt hfree
    unfold mint_ticket
    rw [hev]
    dsimp only
    rw [if_neg (Nat.not_le_of_lt hlt)]
    rw [if_neg (by simp [hfree])]
    exact ⟨_, _, rfl⟩

/-- C3 witness: in a state whose event `"E1"` has `max_seats = 10`, minting
seat 10 is rejected with the out-of-range error and minting the free seat 9
succeeds. -/
theorem C3_seat_bound_witness :
    mint_ticket stA "E1" 10 "B" =
      (.error "Seat number exceeds the maximum seats available", stA) ∧
    ∃ t st2, mint_ticket stA "E1" 9 "B" = (.ok t, st2) :=
  ⟨(C3_seat_bound stA "E1" 10 "B" evA rfl).2.1 (by decide),
   (C3_seat_bound stA "E1" 9 "B" evA rfl).2.2 (by decide) rfl⟩

/-- C4: event ids are never reused: once a `create_event` call with id `id`
has succeeded, every later `create_event` call with the same id — whatever
its other arguments and whatever operations happened in between — returns
the `AlreadyExists` error (`"Event with this ID already exists"`) and
leaves the state unchanged. -/
theorem C4_create_event_unique (now : Nat) (st : State) (name : String)
    (date : Nat) (location : String) (num_seats : Nat) (id : String)
    (ev : Event) (st2 : State)
    (h : create_event now st name date location num_seats id = (.ok ev, st2)) :
    ∀ (ops : List Op) (now2 : Nat) (name2 : String) (date2 : Nat)
      (location2 : String) (num_seats2 : Nat),
      create_event now2 (applyOps st2 ops) name2 date2 location2 num_seats2 id =
        (.error "Event with this ID already exists", applyOps st2 ops) := by
  intro ops now2 name2 date2 location2 num_seats2
  obtain ⟨hc, hev, hst2⟩ :=
    create_event_ok_inv now st name date location num_seats id ev st2 h
  have hcon : mapContains (applyOps st2 ops).events id = true := by
    apply events_mono_applyOps
    rw [hst2]
    simp [mapContains_mapInsert]
  unfold create_event
  rw [if_pos hcon]

/-- C4 witness: creating `"E1"` on the empty state succeeds; creating `"E1"`
again immediately afterwards (with different arguments) fails with
`"Event with this ID already exists"` and leaves the state unchanged. -/
theorem C4_create_event_unique_witness :
    create_event 7 stA "Other" 999 "Elsewhere" 3 "E1" =
      (.error "Event with this ID already exists", stA) :=
  C4_create_event_unique 0 initState "Concert" 300000000000 "Hall" 10 "E1"
    evA stA rfl [] 7 "Other" 999 "Elsewhere" 3

/-- C5: every operation is all-or-nothing: whenever `create_event`,
`mint_ticket` or `transfer_ticket` returns an error, the post-state (all
three maps) is exactly the pre-state. -/
theorem C5_all_or_nothing :
    (∀ (now : Nat) (st : State) (name : String) (date : Nat)
        (location : String) (num_seats : Nat) (id : String) (msg : String),
      (create_event now st name date location num_seats id).1 = .error msg →
      (create_event now st name date location num_seats id).2 = st) ∧
    (∀ (st : State) (event_id : String) (seat_number : Nat)
        (owner : Principal) (msg : String),
      (mint_ticket st event_id seat_number owner).1 = .error msg →
      (mint_ticket st event_id seat_number owner).2 = st) ∧
    (∀ (caller : Principal) (st : State) (ticket_id : String)
        (new_owner : Principal) (msg : String),
      (transfer_ticket caller st ticket_id new_owner).1 = .error msg →
      (transfer_ticket caller st ticket_id new_owner).2 = st) := by
  refine ⟨?_, ?_, ?_⟩
  · intro now st name date location num_seats id msg
    unfold create_event
    split
    · intro _; rfl
    · split
      · intro _; rfl
      · intro h; simp at h
  · intro st event_id seat_number owner msg
    unfold mint_ticket
    split
    · intro _; rfl
    · split
      · intro _; rfl
      · dsimp only
        split
        · intro _; rfl
        · intro h; simp at h
  · intro caller st ticket_id new_owner msg
    unfold transfer_ticket
    split
    · intro _; rfl
    · split
      · intro _; rfl
      · intro h; simp at h

/-- C6: the id of every successfully minted ticket is deterministically
derived from the pair as `event_id ++ "_" ++ decimal(seat_number)`. -/
theorem C6_ticket_id_derivation (st : State) (event_id : String)
    (seat_number : Nat) (owner : Principal) (t : Ticket) (st2 : State)
    (h : mint_ticket st event_id seat_number owner = (.ok t, st2)) :
    t.id = event_id ++ "_" ++ Nat.repr seat_number := by
  obtain ⟨ev, _, _, _, ht, _⟩ :=
    mint_ticket_ok_inv st event_id seat_number owner t st2 h
  rw [ht]
  exact rfl

/-- C6 witness: minting seat 0 of event `"E1"` yields the ticket id
`"E1" ++ "_" ++ decimal(0)`, which is the string `"E1_0"`. -/
theorem C6_ticket_id_derivation_witness :
    tA.id = "E1" ++ "_" ++ Nat.repr 0 ∧ tA.id = "E1_0" :=
  ⟨C6_ticket_id_derivation stA "E1" 0 "A" tA stA1 rfl, rfl⟩

/-- C7: with non-empty trimmed name and location, a positive seat capacity
and a fresh id, `create_event` fails with the date `InvalidInput` error iff
`date < now + 300000000000` nanoseconds (5 minutes); a date exactly equal
to `now + 5 minutes` is accepted. (The hypothesis `now + 300000000000 <
2 ^ 64` rules out `u64` wrap-around of `time() + five_minutes`.) -/
theorem C7_lead_time (now : Nat) (st : State) (name : String) (date : Nat)
    (location : String) (num_seats : Nat) (id : String)
    (hid : mapContains st.events id = false)
    (hname : (rustTrim name).length ≠ 0)
    (hloc : (rustTrim location).length ≠ 0)
    (hseats : num_seats ≠ 0)
    (hof : now + 300000000000 < 2 ^ 64) :
    ((create_event now st name date location num_seats id).1 =
        .error ("Date needs to be at least five minutes more than the current timestamp. Date="
          ++ Nat.repr date) ↔
      date < now + 300000000000) ∧
    (date = now + 300000000000 →
      ∃ ev, create_event now st name date location num_seats id =
        (.ok ev, { st with events := mapInsert st.events id ev })) := by
  have hmod : (now + 300000000000) % 2 ^ 64 = now + 300000000000 :=
    Nat.mod_eq_of_lt hof
  unfold create_event validate_input
  rw [if_neg (by simp [hid])]
  dsimp only
  rw [hmod]
  rw [if_neg (by simp [hname])]
  rw [if_neg (by simp [hloc])]
  rw [if_neg (by simp [hseats])]
  by_cases hd : date < now + 300000000000
  · rw [if_pos hd]
    dsimp only
    constructor
    · exact ⟨fun _ => hd, fun _ => rfl⟩
    · intro he
      omega
  · rw [if_neg hd]
    dsimp only
    constructor
    · constructor
      · intro he
        simp at he
      · intro he
        exact absurd he hd
    · intro he
      exact ⟨_, rfl⟩

/-- C7 witness: on the empty state with `now = 0`, a date of exactly
`300000000000` (now + 5 minutes) is accepted. -/
theorem C7_lead_time_witness :
    ∃ ev, create_event 0 initState "Concert" 300000000000 "Hall" 10 "E1" =
      (.ok ev, { initState with events := mapInsert initState.events "E1" ev }) :=
  (C7_lead_time 0 initState "Concert" 300000000000 "Hall" 10 "E1" rfl
    (by decide) (by decide) (by decide) (by decide)).2 rfl

/-- C8: every successful `mint_ticket` stores, keyed by the ticket id, an
NFT metadata record with title `"Event Ticket"`, a description interpolating
the event's name and the seat number, and an attribute list containing
`("Event Name", event.name)`; the returned ticket carries the requested
owner, event id and (decimal-rendered) seat number. -/
theorem C8_metadata_projection (st : State) (event_id : String)
    (seat_number : Nat) (owner : Principal) (ev : Event) (t : Ticket)
    (st2 : State)
    (hev : mapGet st.events event_id = some ev)
    (h : mint_ticket st event_id seat_number owner = (.ok t, st2)) :
    mapGet st2.nft_metadata t.id = some
      { token_id := t.id, owner := owner
        metadata :=
          { name := "Event Ticket"
            description :=
              "Ticket for " ++ ev.name ++ " at seat " ++ Nat.repr seat_number
            image := "image_url_or_data_uri"
            attributes := [{ trait_type := "Event Name", value := ev.name }] } } ∧
    (∃ m, mapGet st2.nft_metadata t.id = some m ∧
      ({ trait_type := "Event Name", value := ev.name } : Attribute)
        ∈ m.metadata.attributes) ∧
    t.owner = owner ∧ t.event_id = event_id ∧
    t.seat_number = Nat.repr seat_number := by
  obtain ⟨ev2, hev2, hlt, hfree, ht, hst2⟩ :=
    mint_ticket_ok_inv st event_id seat_number owner t st2 h
  rw [hev] at hev2
  injection hev2 with hev3
  subst hev3
  have hid : t.id = ticketId event_id seat_number := by rw [ht]
  have hget : mapGet st2.nft_metadata t.id = some
      { token_id := ticketId event_id seat_number, owner := owner
        metadata :=
          { name := "Event Ticket"
            description :=
              "Ticket for " ++ ev.name ++ " at seat " ++ Nat.repr seat_number
            image := "image_url_or_data_uri"
            attributes := [{ trait_type := "Event Name", value := ev.name }] } } := by
    rw [hst2, hid]
    exact mapGet_mapInsert_self _ _ _
  refine ⟨by rw [hget, hid], ⟨_, hget, by simp⟩, by rw [ht], by rw [ht], by rw [ht]⟩

/-- C8 witness: minting seat 0 of `"E1"` (named `"Concert"`) stores the
expected metadata record under the ticket id and returns a ticket owned by
`"A"` for event `"E1"`, seat `"0"`. -/
theorem C8_metadata_projection_witness :
    mapGet stA1.nft_metadata tA.id = some
      { token_id := tA.id, owner := "A"
        metadata :=
          { name := "Event Ticket"
            description :=
              "Ticket for " ++ evA.name ++ " at seat " ++ Nat.repr 0
            image := "image_url_or_data_uri"
            attributes := [{ trait_type := "Event Name", value := evA.name }] } } ∧
    (∃ m, mapGet stA1.nft_metadata tA.id = some m ∧
      ({ trait_type := "Event Name", value := evA.name } : Attribute)
        ∈ m.metadata.attributes) ∧
    tA.owner = "A" ∧ tA.event_id = "E1" ∧ tA.seat_number = Nat.repr 0 :=
  C8_metadata_projection stA "E1" 0 "A" evA tA stA1 rfl rfl

/-- C9: a successful transfer changes only the owner of the transferred
ticket: the events map, the metadata map (so the `owner` snapshot inside the
stored metadata record may go stale), every other ticket, and the `id`,
`event_id` and `seat_number` fields of the transferred ticket are unchanged;
its `owner` becomes `new_owner`. -/
theorem C9_transfer_frame (caller : Principal) (st : State)
    (ticket_id : String) (new_owner : Principal) (st2 : State)
    (h : transfer_ticket caller st ticket_id new_owner = (.ok (), st2)) :
    st2.events = st.events ∧ st2.nft_metadata = st.nft_metadata ∧
    (∀ k, k ≠ ticket_id → mapGet st2.tickets k = mapGet st.tickets k) ∧
    ∃ tk, mapGet st.tickets ticket_id = some tk ∧
      mapGet st2.tickets ticket_id = some
        { id := tk.id, seat_number := tk.seat_number, event_id := tk.event_id
          owner := new_owner } := by
  obtain ⟨tk, h1, h2, hst2⟩ :=
    transfer_ticket_ok_inv caller st ticket_id new_owner st2 h
  subst hst2
  refine ⟨rfl, rfl, ?_, tk, h1, ?_⟩
  · intro k hk
    exact mapGet_mapInsert_ne _ _ _ _ (fun he => hk he.symm)
  · rw [mapGet_mapInsert_self]

/-- C9 witness: after `"A"` transfers ticket `"E1_0"` to `"B"`, the events
and metadata maps are unchanged, other ticket lookups are unchanged, and
the ticket keeps its id, seat and event while its owner becomes `"B"`. -/
theorem C9_transfer_frame_witness :
    stA2.events = stA1.events ∧ stA2.nft_metadata = stA1.nft_metadata ∧
    (∀ k, k ≠ "E1_0" → mapGet stA2.tickets k = mapGet stA1.tickets k) ∧
    ∃ tk, mapGet stA1.tickets "E1_0" = some tk ∧
      mapGet stA2.tickets "E1_0" = some
        { id := tk.id, seat_number := tk.seat_number, event_id := tk.event_id
          owner := "B" } :=
  C9_transfer_frame "A" stA1 "E1_0" "B" stA2 rfl
